import Mathlib

/-!
# Token wizard front-end (`src/App.js`)

A shallow embedding of the React components of `src/App.js`:
`ConnectionController`, `DeploymentController` and
`DeploymentStatusController`, with the wallet provider and the contract
factory as external collaborators whose answers are inputs of the model.

Objects that the code allocates and passes to `Object.assign` live in an
explicit heap, so that "the previous record is left alone" is a statement
about the heap and not a property of the modelling language.
-/

namespace TokenWizard

/-! ## Values and objects -/

/-- The JavaScript values a token-parameter field can hold: `undefined`
(for instance `connection?.accounts[0]` without a connection) or a string
(`e.target.value`, an account address). -/
inductive JsVal
  | undefined
  | str (s : String)
  deriving DecidableEq, Repr

/-- The expression `v ?? d` for a string default `d`. -/
def JsVal.orDefault (v : JsVal) (d : String) : String :=
  match v with
  | .undefined => d
  | .str s => s

/-- A plain object, given by its own data properties: `o k = none` when the
object has no own property `k`, and `o k = some v` when it has one with value
`v`. Property names are ordinary data keys such as the form's field names;
accessor properties inherited from `Object.prototype` are not part of the
model. -/
abbrev Obj := String → Option JsVal

/-- The object literal `{}`. -/
def Obj.empty : Obj := fun _ => none

/-- The object literal `{[name]: value}`. -/
def Obj.computed (name : String) (value : JsVal) : Obj :=
  fun k => if k = name then some value else none

/-- The property read `o[k]`: a missing property reads as `undefined`. -/
def Obj.get (o : Obj) (k : String) : JsVal :=
  (o k).getD .undefined

/-- Copies every own property of `source` onto `target` (one source of
`Object.assign`): a property of the source overrides the target's. -/
def Obj.copyFrom (target source : Obj) : Obj :=
  fun k =>
    match source k with
    | some v => some v
    | none => target k

/-- An object literal with the listed properties, later entries overriding
earlier ones. -/
def Obj.ofList (props : List (String × JsVal)) : Obj :=
  props.foldl (fun o kv => o.copyFrom (Obj.computed kv.1 kv.2)) Obj.empty

/-- An object reference: an index into the heap. -/
abbrev Ref := Nat

/-- The heap of allocated objects. -/
abbrev Heap := List Obj

/-- Allocation of a new object: it gets the next free reference. -/
def Heap.alloc (h : Heap) (o : Obj) : Heap × Ref :=
  (h ++ [o], h.length)

/-- The object stored at a reference. -/
def Heap.read (h : Heap) (r : Ref) : Obj :=
  h.getD r Obj.empty

/-- In-place update of the object stored at a reference. -/
def Heap.write (h : Heap) (r : Ref) (o : Obj) : Heap :=
  h.set r o

/-- The call `Object.assign(target, ...sources)`: mutates the target in place,
copying the properties of each source in turn, and returns the target. -/
def objectAssign (h : Heap) (target : Ref) (sources : List Ref) : Heap × Ref :=
  (sources.foldl
    (fun hp src => Heap.write hp target ((Heap.read hp target).copyFrom (Heap.read hp src))) h,
   target)

/-! ## `DeploymentController`: token parameters -/

def OWNER : String := "owner"
def NAME : String := "name"
def SYMBOL : String := "symbol"
def INITIAL_SUPPLY : String := "initialSupply"

/-- The state updater that `onTokenParamChanged(name, value)` hands to
`setTokenParams`: `prev => Object.assign({}, prev, {[name]: value})`.
It is applied to the current state value `prev` and returns the new one. -/
def onTokenParamChanged (name : String) (value : JsVal) (h : Heap) (prev : Ref) :
    Heap × Ref :=
  let a := Heap.alloc h Obj.empty
  let b := Heap.alloc a.1 (Obj.computed name value)
  objectAssign b.1 a.2 [prev, b.2]

/-- A sequence of `onTokenParamChanged` calls, applied in order. -/
def setFields (calls : List (String × JsVal)) (h : Heap) (p : Ref) : Heap × Ref :=
  calls.foldl (fun st c => onTokenParamChanged c.1 c.2 st.1 st.2) (h, p)

/-! ## External collaborators and component state -/

/-- An error object raised or rejected by an external call; `message` is the
text read by `e.message`. -/
structure JsError where
  message : String
  deriving DecidableEq, Repr

/-- A value that an external call throws, or that the promise it returns
rejects with: an error object, or `undefined` or `null`. -/
inductive Thrown
  | error (e : JsError)
  | nullish
  deriving DecidableEq, Repr

/-- What leaves an asynchronous function of the page through the promise it
returns: a value thrown by an external call, or the `TypeError` that the
language raises when a property of `undefined` or `null` is read (its message
text is the engine's). -/
inductive Rejection
  | thrown (v : Thrown)
  | typeError
  deriving DecidableEq, Repr

/-- The wallet handle injected as `window.ethereum`. -/
structure Wallet where
  id : Nat
  deriving DecidableEq, Repr

/-- The object `new ethers.providers.Web3Provider(window.ethereum)`. -/
structure Provider where
  ethereum : Wallet
  deriving DecidableEq, Repr

/-- The object `provider.getSigner()`. -/
structure Signer where
  provider : Provider
  deriving DecidableEq, Repr

/-- The object stored by `setConnection`. -/
structure Connection where
  provider : Provider
  signer : Signer
  accounts : List String
  deriving DecidableEq, Repr

/-- The contract object `factory.deploy(...)` resolves to; only its address is
read. -/
structure Contract where
  address : String
  deriving DecidableEq, Repr

/-- The object stored by `setDeploymentStatus`. -/
structure DeploymentStatus where
  isFinite : Bool
  msg : String
  details : String
  deriving DecidableEq, Repr

/-- The suspension points of `deploy`: the `await` of line 101, holding the
arguments of `factory.deploy` in call order, and the `await` of line 107. -/
inductive DeployAwait
  | factoryDeploy (name symbol initialSupply owner : JsVal)
  | wait (contract : Contract)
  deriving DecidableEq, Repr

/-- An asynchronous call that is suspended at an `await`. -/
inductive Task
  | connect (provider : Provider)
  | deploy (a : DeployAwait)
  deriving DecidableEq, Repr

/-- The state of the page: the injected wallet handle, the heap, the three
`useState` cells, the number of `accountsChanged` listeners registered on the
wallet, and the suspended asynchronous calls. -/
structure AppState where
  ethereum : Option Wallet
  heap : Heap
  connection : Option Connection
  tokenParams : Ref
  deploymentStatus : Option DeploymentStatus
  listeners : Nat
  tasks : List Task

/-- The current token-params record. -/
def AppState.params (s : AppState) : Obj :=
  Heap.read s.heap s.tokenParams

/-- The call `setTokenParams(updater)` with a functional updater. -/
def setTokenParams (updater : Heap → Ref → Heap × Ref) (s : AppState) : AppState :=
  let r := updater s.heap s.tokenParams
  { s with heap := r.1, tokenParams := r.2 }

/-- The call `setDeploymentStatus(v)`. -/
def setDeploymentStatus (v : Option DeploymentStatus) (s : AppState) : AppState :=
  { s with deploymentStatus := v }

/-- The expression `connection?.accounts[0]`. -/
def firstAccount (connection : Option Connection) : JsVal :=
  match connection with
  | none => .undefined
  | some c =>
    match c.accounts with
    | [] => .undefined
    | a :: _ => .str a

/-- The effect of `ConnectionController` (lines 49-57): with a connection,
one more `accountsChanged` listener is registered; nothing unregisters it. -/
def connectionEffect (s : AppState) : AppState :=
  if s.connection.isSome then { s with listeners := s.listeners + 1 } else s

/-- The effect of `DeploymentController` (line 87):
`onTokenParamChanged(OWNER, connection?.accounts[0])`. -/
def ownerEffect (s : AppState) : AppState :=
  setTokenParams (onTokenParamChanged OWNER (firstAccount s.connection)) s

/-- The two effects that depend on `connection`, in component order. -/
def runEffects (s : AppState) : AppState :=
  ownerEffect (connectionEffect s)

/-- The call `setConnection(v)` followed by the commit: an object is always a
new value, `null` is a new value only when a connection was stored; the effects
run when the value is new. Where `connect` calls it twice in a row, committing
after each call or once after both leaves the same values in every cell. -/
def setConnection (v : Option Connection) (s : AppState) : AppState :=
  match v, s.connection with
  | none, none => s
  | _, _ => runEffects { s with connection := v }

/-! ## `ConnectionController` -/

/-- The `setConnection` calls of `connect` once `provider.send` has resolved
with `accounts` (lines 37-46), in program order. -/
def connect (provider : Provider) (accounts : List String) : List (Option Connection) :=
  let signer : Signer := { provider := provider }
  (if accounts.length = 0 then [none] else []) ++
    [some { provider := provider, signer := signer, accounts := accounts }]

/-- The listener registered on `accountsChanged` (lines 51-55). -/
def onAccountsChanged (newAccounts : List String) (s : AppState) : AppState :=
  if newAccounts.length = 0 then setConnection none s else s

/-- What `ConnectionController` renders. -/
inductive ConnectionView
  | noMetamask
  | null
  | connectButton
  deriving DecidableEq, Repr

/-- The render of `ConnectionController` (lines 59-70). -/
def ConnectionController (ethereum : Option Wallet) (connection : Option Connection) :
    ConnectionView :=
  if ethereum.isNone then .noMetamask
  else if connection.isSome then .null
  else .connectButton

/-! ## `DeploymentController` and `DeploymentStatusController` -/

/-- A rendered `<label>` with its `<input>`. -/
structure InputView where
  label : String
  name : String
  type : Option String
  value : String
  deriving DecidableEq, Repr

/-- The helper `makeInput(label, name, type)`; the value shown is
`tokenParams[name] ?? ""`. -/
def makeInput (tokenParams : Obj) (label name : String) (type : Option String) : InputView :=
  { label := label, name := name, type := type, value := (tokenParams.get name).orDefault "" }

/-- The status panel: heading, paragraph, and whether the "Try again?" button
is there. -/
structure StatusView where
  msg : String
  details : String
  tryAgain : Bool
  deriving DecidableEq, Repr

/-- The render of `DeploymentStatusController` (lines 135-149). -/
def DeploymentStatusController (deploymentStatus : Option DeploymentStatus) :
    Option StatusView :=
  match deploymentStatus with
  | none => none
  | some d => some { msg := d.msg, details := d.details, tryAgain := d.isFinite }

/-- What `DeploymentController` renders: nothing, the status panel, or the
form: its inputs in order, followed by the button with the given caption. -/
inductive DeploymentView
  | null
  | status (panel : Option StatusView)
  | form (inputs : List InputView) (button : String)
  deriving DecidableEq, Repr

/-- The render of `DeploymentController` (lines 117-132). -/
def DeploymentController (connection : Option Connection) (tokenParams : Obj)
    (deploymentStatus : Option DeploymentStatus) : DeploymentView :=
  if connection.isNone then .null
  else if deploymentStatus.isSome then .status (DeploymentStatusController deploymentStatus)
  else .form
    [ makeInput tokenParams "Token name" NAME none,
      makeInput tokenParams "Token symbol" SYMBOL none,
      makeInput tokenParams "Initial supply" INITIAL_SUPPLY (some "number"),
      makeInput tokenParams "Token owner" OWNER none ]
    "Release!"

/-- The status written at line 99. -/
def inProgress : DeploymentStatus :=
  { isFinite := false, msg := "Releasing you token", details := "Please be patient" }

/-- The status written at lines 108-111. -/
def released (contract : Contract) : DeploymentStatus :=
  { isFinite := true, msg := "Token has been released!",
    details := "Token's smart contract address: " ++ contract.address }

/-- The status written at line 113. -/
def failed (e : JsError) : DeploymentStatus :=
  { isFinite := true, msg := "Uh oh, error occurred", details := e.message }

/-- How a piece of `deploy` ends: suspended at an `await`, returned, or threw
out of the function. -/
inductive DeployNext
  | await (a : DeployAwait)
  | returned
  | threw (r : Rejection)
  deriving DecidableEq, Repr

/-- A piece of `deploy` between two suspension points: its
`setDeploymentStatus` calls in order, and how it ends. -/
structure DeployStep where
  writes : List DeploymentStatus
  next : DeployNext
  deriving DecidableEq, Repr

/-- The piece of `deploy` up to the first `await` (lines 97-101). `construct`
is the outcome of `new ethers.ContractFactory(...)`, which stands before the
`try` block. -/
def deployBegin (construct : Except Thrown Unit) (_connection : Connection) (params : Obj) :
    DeployStep :=
  let name := params.get "name"
  let symbol := params.get "symbol"
  let initialSupply := params.get "initialSupply"
  let owner := params.get "owner"
  match construct with
  | .error v => { writes := [], next := .threw (.thrown v) }
  | .ok _ =>
    { writes := [inProgress], next := .await (.factoryDeploy name symbol initialSupply owner) }

/-- The `catch` block of `deploy` (lines 112-114), entered with the value `e`
that was thrown inside the `try` block. The argument of `setDeploymentStatus`
reads `e.message` first: on `undefined` or `null` that read raises a
`TypeError`, nothing is written, and the error leaves `deploy`. -/
def deployCatch (e : Thrown) : DeployStep :=
  match e with
  | .error e => { writes := [failed e], next := .returned }
  | .nullish => { writes := [], next := .threw .typeError }

/-- The piece of `deploy` after `await factory.deploy(...)` has settled
(lines 101-107, or the `catch` block). -/
def deployAfterDeploy (deployed : Except Thrown Contract) : DeployStep :=
  match deployed with
  | .ok contract => { writes := [], next := .await (.wait contract) }
  | .error e => deployCatch e

/-- The piece of `deploy` after `await contract.deployTransaction.wait()` has
settled (lines 107-111, or the `catch` block). -/
def deployAfterWait (contract : Contract) (waited : Except Thrown Unit) : DeployStep :=
  match waited with
  | .ok _ => { writes := [released contract], next := .returned }
  | .error e => deployCatch e

/-- The answers of the ethers library to the three external calls of one
`deploy`. -/
structure Ethers where
  construct : Except Thrown Unit
  deployed : Except Thrown Contract
  waited : Except Thrown Unit

/-- What `deploy` does to the outside, in order. -/
inductive DeployEffect
  | setDeploymentStatus (v : DeploymentStatus)
  | await (a : DeployAwait)
  deriving DecidableEq, Repr

/-- The effects of one piece: its writes, then the `await` it stops at. -/
def DeployStep.effects (p : DeployStep) : List DeployEffect :=
  p.writes.map .setDeploymentStatus ++
    (match p.next with
     | .await a => [.await a]
     | _ => [])

/-- A whole run of `deploy`: what it did, and how the promise it returns
settles (`error e`: the failure reached the caller). -/
structure DeployRun where
  trace : List DeployEffect
  result : Except Rejection Unit

/-- The piece of `deploy` that runs when the call it is suspended at
settles. -/
def deployResume (ethers : Ethers) (a : DeployAwait) : DeployStep :=
  match a with
  | .factoryDeploy .. => deployAfterDeploy ethers.deployed
  | .wait contract => deployAfterWait contract ethers.waited

/-- How a run that stops with `next` settles the promise `deploy` returns. -/
def DeployNext.result (next : DeployNext) : Except Rejection Unit :=
  match next with
  | .threw r => .error r
  | _ => .ok ()

/-- The function `deploy(connection, params)` run to completion against the
answers of the library: the first piece, then one resumption for each of its
two `await`s. -/
def deploy (ethers : Ethers) (connection : Connection) (params : Obj) : DeployRun :=
  let p1 := deployBegin ethers.construct connection params
  match p1.next with
  | .await a1 =>
    let p2 := deployResume ethers a1
    match p2.next with
    | .await a2 =>
      let p3 := deployResume ethers a2
      { trace := p1.effects ++ p2.effects ++ p3.effects, result := p3.next.result }
    | n2 => { trace := p1.effects ++ p2.effects, result := n2.result }
  | n1 => { trace := p1.effects, result := n1.result }

/-- The `setDeploymentStatus` calls of a run, in order. -/
def DeployRun.writes (r : DeployRun) : List DeploymentStatus :=
  r.trace.filterMap fun e =>
    match e with
    | .setDeploymentStatus v => some v
    | .await _ => none

/-- The `factory.deploy` calls of a run, each as its argument list. -/
def DeployRun.deployCalls (r : DeployRun) : List (List JsVal) :=
  r.trace.filterMap fun e =>
    match e with
    | .await (.factoryDeploy name symbol initialSupply owner) =>
      some [name, symbol, initialSupply, owner]
    | _ => none

/-- The deployment status after a run that started from status `before`. -/
def DeployRun.statusAfter (r : DeployRun) (before : Option DeploymentStatus) :
    Option DeploymentStatus :=
  r.writes.foldl (fun _ v => some v) before

/-! ## The page as a transition system -/

/-- The page after the first render and its effects: `useState` initial
values, then the effects of the first commit. `DefaultTokenParams` is the
object exported by `./token_params`. -/
def mount (ethereum : Option Wallet) (DefaultTokenParams : Obj) : AppState :=
  runEffects
    { ethereum := ethereum, heap := [DefaultTokenParams], connection := none,
      tokenParams := 0, deploymentStatus := none, listeners := 0, tasks := [] }

/-- What the user and the outside world can do to the page. -/
inductive Event
  | clickConnect
  | accountsSettled (i : Nat) (accounts : Except Thrown (List String))
  | accountsChanged (newAccounts : List String)
  | change (name : String) (value : String)
  | clickRelease (construct : Except Thrown Unit)
  | deploySettled (i : Nat) (deployed : Except Thrown Contract)
  | waitSettled (i : Nat) (waited : Except Thrown Unit)
  | clickTryAgain

/-- The deployment view of a state. -/
def AppState.deploymentView (s : AppState) : DeploymentView :=
  DeploymentController s.connection s.params s.deploymentStatus

/-- The connection view of a state. -/
def AppState.connectionView (s : AppState) : ConnectionView :=
  ConnectionController s.ethereum s.connection

/-- Runs the status writes of a piece of `deploy`. -/
def applyWrites (writes : List DeploymentStatus) (s : AppState) : AppState :=
  writes.foldl (fun st v => setDeploymentStatus (some v) st) s

/-- Task list after the task at `i` ran a piece that ended with `next`: it
stays, suspended at the new `await`, or it is gone. -/
def retask (tasks : List Task) (i : Nat) (next : DeployNext) : List Task :=
  match next with
  | .await a => tasks.set i (.deploy a)
  | _ => tasks.eraseIdx i

/-- One event. `none`: the event cannot happen in this state (the control is
not rendered, or no such call is suspended). -/
def step (s : AppState) (e : Event) : Option AppState :=
  match e with
  | .clickConnect =>
    match s.ethereum with
    | some ethereum =>
      if s.connectionView = .connectButton then
        some { s with tasks := s.tasks ++ [.connect { ethereum := ethereum }] }
      else none
    | none => none
  | .accountsSettled i accounts =>
    match s.tasks.get? i with
    | some (.connect provider) =>
      let s1 := { s with tasks := s.tasks.eraseIdx i }
      match accounts with
      | .ok accounts => some ((connect provider accounts).foldl (fun st v => setConnection v st) s1)
      | .error _ => some s1
    | _ => none
  | .accountsChanged newAccounts =>
    some (Nat.iterate (onAccountsChanged newAccounts) s.listeners s)
  | .change name value =>
    match s.deploymentView with
    | .form inputs _ =>
      if name ∈ inputs.map InputView.name then
        some (setTokenParams (onTokenParamChanged name (.str value)) s)
      else none
    | _ => none
  | .clickRelease construct =>
    match s.deploymentView, s.connection with
    | .form _ _, some connection =>
      let p := deployBegin construct connection s.params
      let s1 := applyWrites p.writes s
      match p.next with
      | .await a => some { s1 with tasks := s1.tasks ++ [.deploy a] }
      | _ => some s1
    | _, _ => none
  | .deploySettled i deployed =>
    match s.tasks.get? i with
    | some (.deploy (.factoryDeploy ..)) =>
      let p := deployAfterDeploy deployed
      let s1 := applyWrites p.writes s
      some { s1 with tasks := retask s1.tasks i p.next }
    | _ => none
  | .waitSettled i waited =>
    match s.tasks.get? i with
    | some (.deploy (.wait contract)) =>
      let p := deployAfterWait contract waited
      let s1 := applyWrites p.writes s
      some { s1 with tasks := retask s1.tasks i p.next }
    | _ => none
  | .clickTryAgain =>
    match s.deploymentView with
    | .status (some panel) =>
      if panel.tryAgain then some (setDeploymentStatus none s) else none
    | _ => none

/-- A sequence of events, in order. -/
def run (s : AppState) (events : List Event) : Option AppState :=
  events.foldlM step s

/-- The states the page can be in. -/
inductive Reachable : AppState → Prop
  | mount (ethereum : Option Wallet) (DefaultTokenParams : Obj) :
      Reachable (mount ethereum DefaultTokenParams)
  | step {s s1 : AppState} (e : Event) : Reachable s → step s e = some s1 → Reachable s1

/-- The parameters of the spec's deployment scenario. -/
def coinParams : Obj :=
  Obj.ofList
    [("name", .str "Coin"), ("symbol", .str "CN"), ("initialSupply", .str "1000"),
     ("owner", .str "0xABC")]

/-- A page with a wallet and empty default parameters. -/
def page : AppState := mount (some { id := 0 }) Obj.empty

/-- The page `page` after a click on the connect button: one `connect` call
is suspended at its `await`. -/
def connecting : AppState :=
  { page with tasks := [.connect { ethereum := { id := 0 } }] }

/-- The connection that `connect` stores for the accounts `["0xABC"]`. -/
def abcConnection : Connection :=
  { provider := { ethereum := { id := 0 } }, signer := { provider := { ethereum := { id := 0 } } },
    accounts := ["0xABC"] }

/-- The page `page` after `connect` resolved with `["0xABC"]`. -/
def connected : AppState :=
  setConnection (some abcConnection) page

/-- A connected page whose deployment failed with "insufficient funds". -/
def failedPage : AppState :=
  { ethereum := some { id := 0 }, heap := [coinParams], connection := some abcConnection,
    tokenParams := 0,
    deploymentStatus := some (failed { message := "insufficient funds" }),
    listeners := 1, tasks := [] }

/-- The token-params reference points into the heap. -/
def AppState.WellFormed (s : AppState) : Prop :=
  s.tokenParams < s.heap.length

/-- What holds in every state the page can be in: the token-params reference
is allocated, and a stored connection comes with a registered listener. -/
def AppState.Inv (s : AppState) : Prop :=
  s.WellFormed ∧ (s.connection.isSome → 0 < s.listeners)

/-! ## Theorems -/

theorem Heap.read_append_left (h : Heap) (t : List Obj) (r : Ref) (hr : r < h.length) :
    Heap.read (h ++ t) r = Heap.read h r := by
  simp [Heap.read, List.getD_eq_getElem?_getD, List.getElem?_append_left hr]

theorem onTokenParamChanged_eq (n : String) (v : JsVal) (h : Heap) (p : Ref)
    (hp : p < h.length) :
    onTokenParamChanged n v h p =
      (h ++ [(Obj.empty.copyFrom (Heap.read h p)).copyFrom (Obj.computed n v), Obj.computed n v],
        h.length) := by
  have hne : p ≠ h.length := Nat.ne_of_lt hp
  simp [onTokenParamChanged, objectAssign, Heap.alloc, Heap.write, Heap.read,
    List.getD_eq_getElem?_getD, List.getElem?_append_left hp, List.set_append_right,
    List.getElem?_append_right, List.getElem_append_right]

theorem Obj.get_assigned (o : Obj) (n k : String) (v : JsVal) :
    Obj.get ((Obj.empty.copyFrom o).copyFrom (Obj.computed n v)) k =
      if k = n then v else Obj.get o k := by
  unfold Obj.get Obj.copyFrom Obj.computed Obj.empty
  by_cases hk : k = n
  · simp [hk]
  · simp only [hk, if_false]
    cases o k <;> rfl

theorem onTokenParamChanged_read (n : String) (v : JsVal) (h : Heap) (p : Ref)
    (hp : p < h.length) :
    Heap.read (onTokenParamChanged n v h p).1 (onTokenParamChanged n v h p).2 =
      (Obj.empty.copyFrom (Heap.read h p)).copyFrom (Obj.computed n v) := by
  rw [onTokenParamChanged_eq n v h p hp]
  simp [Heap.read, List.getD_eq_getElem?_getD, List.getElem?_append_right,
    List.getElem_append_right]

theorem setFields_frame (calls : List (String × JsVal)) :
    ∀ (h : Heap) (p : Ref), p < h.length →
      (setFields calls h p).2 < (setFields calls h p).1.length ∧
      (∃ t, (setFields calls h p).1 = h ++ t) ∧
      ∀ k, (∀ c ∈ calls, c.1 ≠ k) →
        (Heap.read (setFields calls h p).1 (setFields calls h p).2).get k =
          (Heap.read h p).get k := by
  induction calls with
  | nil =>
    intro h p hp
    exact ⟨hp, ⟨[], by simp [setFields]⟩, fun _ _ => rfl⟩
  | cons c cs ih =>
    intro h p hp
    have hstep : setFields (c :: cs) h p =
        setFields cs (onTokenParamChanged c.1 c.2 h p).1 (onTokenParamChanged c.1 c.2 h p).2 := by
      simp [setFields]
    have hread := onTokenParamChanged_read c.1 c.2 h p hp
    have heq := onTokenParamChanged_eq c.1 c.2 h p hp
    have hvalid : (onTokenParamChanged c.1 c.2 h p).2 <
        (onTokenParamChanged c.1 c.2 h p).1.length := by
      rw [heq]; simp
    obtain ⟨h1, ⟨t, ht⟩, h3⟩ := ih _ _ hvalid
    rw [hstep]
    refine ⟨h1, ⟨[(Obj.empty.copyFrom (Heap.read h p)).copyFrom (Obj.computed c.1 c.2),
      Obj.computed c.1 c.2] ++ t, ?_⟩, ?_⟩
    · rw [ht, heq]; simp
    · intro k hk
      rw [h3 k (fun c1 hc1 => hk c1 (List.mem_cons_of_mem _ hc1)), hread, Obj.get_assigned]
      have : k ≠ c.1 := fun e => hk c (List.mem_cons_self _ _) e.symm
      simp [this]

/-- C4: the update `onTokenParamChanged(n, v)` yields a record `r` with
`r[n] = v` and `r[k] = p[k]` for every other key `k`; after any sequence of
such updates a field that no call named keeps its original value; and the
record `p` (like every object that existed before) is not mutated: the result
is a new object. -/
theorem onTokenParamChanged_isolation (h : Heap) (p : Ref) (hp : p < h.length) :
    (∀ (n : String) (v : JsVal),
      (Heap.read (onTokenParamChanged n v h p).1 (onTokenParamChanged n v h p).2).get n = v ∧
      (∀ k, k ≠ n →
        (Heap.read (onTokenParamChanged n v h p).1 (onTokenParamChanged n v h p).2).get k =
          (Heap.read h p).get k) ∧
      (onTokenParamChanged n v h p).2 ≠ p ∧
      ∀ q, q < h.length → Heap.read (onTokenParamChanged n v h p).1 q = Heap.read h q) ∧
    (∀ (calls : List (String × JsVal)),
      (∀ k, (∀ c ∈ calls, c.1 ≠ k) →
        (Heap.read (setFields calls h p).1 (setFields calls h p).2).get k =
          (Heap.read h p).get k) ∧
      ∀ q, q < h.length → Heap.read (setFields calls h p).1 q = Heap.read h q) := by
  refine ⟨fun n v => ⟨?_, ?_, ?_, ?_⟩, fun calls => ⟨?_, ?_⟩⟩
  · rw [onTokenParamChanged_read n v h p hp, Obj.get_assigned]; simp
  · intro k hk
    rw [onTokenParamChanged_read n v h p hp, Obj.get_assigned]; simp [hk]
  · rw [onTokenParamChanged_eq n v h p hp]; exact (Nat.ne_of_lt hp).symm
  · intro q hq
    rw [onTokenParamChanged_eq n v h p hp]; exact Heap.read_append_left h _ q hq
  · exact (setFields_frame calls h p hp).2.2
  · intro q hq
    obtain ⟨t, ht⟩ := (setFields_frame calls h p hp).2.1
    rw [ht]; exact Heap.read_append_left h t q hq

/-- C4 at the spec's parameters: the record is at reference 0 of a heap that
holds nothing else. -/
theorem onTokenParamChanged_isolation_witness :
    (0 < [coinParams].length) ∧
    (Heap.read (onTokenParamChanged "owner" (.str "0xDEF") [coinParams] 0).1
      (onTokenParamChanged "owner" (.str "0xDEF") [coinParams] 0).2).get "owner" = .str "0xDEF" :=
  ⟨by decide, ((onTokenParamChanged_isolation [coinParams] 0 (by decide)).1 "owner" (.str "0xDEF")).1⟩

/-- C3, as stated, fails for a rejection with `undefined` or `null`: the
`catch` block reads `e.message` before it writes, that read raises a
`TypeError`, and `deploy` ends after one status write, the in-progress value,
with no terminal value; the promise it returns rejects. So when the deployment
call rejects, so when the confirmation wait rejects, and so on the page, which
stays at the in-progress status with nothing in flight. -/
theorem deploy_nullish_rejection_no_terminal :
    (deploy { construct := .ok (), deployed := .error .nullish, waited := .ok () }
        abcConnection coinParams).writes = [inProgress] ∧
    (deploy { construct := .ok (), deployed := .error .nullish, waited := .ok () }
        abcConnection coinParams).result = .error .typeError ∧
    (deploy { construct := .ok (), deployed := .ok ⟨"0x84C8...796"⟩, waited := .error .nullish }
        abcConnection coinParams).writes = [inProgress] ∧
    (deploy { construct := .ok (), deployed := .ok ⟨"0x84C8...796"⟩, waited := .error .nullish }
        abcConnection coinParams).result = .error .typeError ∧
    (run page
        [.clickConnect, .accountsSettled 0 (.ok ["0xABC"]), .clickRelease (.ok ()),
         .deploySettled 0 (.error .nullish)]).map
      (fun s => (s.deploymentStatus, s.tasks)) = some (some inProgress, []) :=
  ⟨rfl, rfl, rfl, rfl, by decide⟩

/-- C3, amended: when factory construction succeeds, and whatever the
deployment call and the confirmation wait answer, as long as the value that
reaches the `catch` block is not `undefined` or `null`, `deploy` writes the
status exactly twice: the in-progress value (not terminal) first, before the
first `await`, then one terminal value, which is the success value exactly
when both calls resolve and the failure value otherwise; the two terminal
values are never equal. -/
theorem deploy_writes_inProgress_then_one_terminal (connection : Connection) (params : Obj)
    (deployed : Except Thrown Contract) (waited : Except Thrown Unit)
    (hd : deployed ≠ .error .nullish)
    (hw : ∀ c, deployed = .ok c → waited ≠ .error .nullish) :
    ∃ terminal : DeploymentStatus,
      (deploy { construct := .ok (), deployed := deployed, waited := waited }
        connection params).writes = [inProgress, terminal] ∧
      inProgress.isFinite = false ∧ terminal.isFinite = true ∧
      (∃ a rest,
        (deploy { construct := .ok (), deployed := deployed, waited := waited }
          connection params).trace = .setDeploymentStatus inProgress :: .await a :: rest) ∧
      ((∃ c, terminal = released c) ↔ ∃ c, deployed = .ok c ∧ waited = .ok ()) ∧
      ((∃ e, terminal = failed e) ↔ ¬ ∃ c, deployed = .ok c ∧ waited = .ok ()) ∧
      (∀ c, deployed = .ok c → waited = .ok () → terminal = released c) ∧
      (∀ e, deployed = .error (.error e) → terminal = failed e) ∧
      (∀ c e, deployed = .ok c → waited = .error (.error e) → terminal = failed e) ∧
      ∀ c e, released c ≠ failed e := by
  have hne : ∀ c e, released c ≠ failed e := by
    intro c e h
    have := congrArg DeploymentStatus.msg h
    simp [released, failed] at this
  cases deployed with
  | error v =>
    cases v with
    | nullish => exact absurd rfl hd
    | error e =>
      refine ⟨failed e, ?_, rfl, rfl, ⟨_, _, rfl⟩, ?_, ?_, ?_, ?_, ?_, hne⟩
      · rfl
      · constructor
        · rintro ⟨c, hc⟩; exact absurd hc.symm (hne c e)
        · rintro ⟨c, hc, _⟩; cases hc
      · constructor
        · intro _; rintro ⟨c, hc, _⟩; cases hc
        · intro _; exact ⟨e, rfl⟩
      · intro c hc; cases hc
      · intro e1 he; cases he; rfl
      · intro c e1 hc; cases hc
  | ok c =>
    cases waited with
    | error v =>
      cases v with
      | nullish => exact absurd rfl (hw c rfl)
      | error e =>
        refine ⟨failed e, ?_, rfl, rfl, ⟨_, _, rfl⟩, ?_, ?_, ?_, ?_, ?_, hne⟩
        · rfl
        · constructor
          · rintro ⟨c1, hc⟩; exact absurd hc.symm (hne c1 e)
          · rintro ⟨c1, _, hw1⟩; cases hw1
        · constructor
          · intro _; rintro ⟨c1, _, hw1⟩; cases hw1
          · intro _; exact ⟨e, rfl⟩
        · intro c1 _ hw1; cases hw1
        · intro e1 he; cases he
        · intro c1 e1 _ hw1; cases hw1; rfl
    | ok u =>
      refine ⟨released c, ?_, rfl, rfl, ⟨_, _, rfl⟩, ?_, ?_, ?_, ?_, ?_, hne⟩
      · rfl
      · constructor
        · intro _; exact ⟨c, rfl, rfl⟩
        · intro _; exact ⟨c, rfl⟩
      · constructor
        · rintro ⟨e, he⟩; exact absurd he (hne c e)
        · intro h; exact absurd ⟨c, rfl, rfl⟩ h
      · intro c1 hc _; cases hc; rfl
      · intro e he; cases he
      · intro c1 e _ hw1; cases hw1

/-- C3, amended, at a deployment call that resolves and a confirmation wait
that rejects with the error "insufficient funds". -/
theorem deploy_writes_inProgress_then_one_terminal_witness :
    (Except.ok ⟨"0x84C8...796"⟩ : Except Thrown Contract) ≠ .error .nullish ∧
    (∀ c, (Except.ok ⟨"0x84C8...796"⟩ : Except Thrown Contract) = .ok c →
      (Except.error (.error ⟨"insufficient funds"⟩) : Except Thrown Unit) ≠ .error .nullish) ∧
    ∃ terminal : DeploymentStatus,
      (deploy { construct := .ok (), deployed := .ok ⟨"0x84C8...796"⟩,
                waited := .error (.error ⟨"insufficient funds"⟩) }
        abcConnection coinParams).writes = [inProgress, terminal] ∧
      terminal = failed ⟨"insufficient funds"⟩ := by
  have h1 : (Except.ok ⟨"0x84C8...796"⟩ : Except Thrown Contract) ≠ .error .nullish := by
    intro h; cases h
  have h2 : ∀ c, (Except.ok ⟨"0x84C8...796"⟩ : Except Thrown Contract) = .ok c →
      (Except.error (.error ⟨"insufficient funds"⟩) : Except Thrown Unit) ≠ .error .nullish := by
    intro _ _ h; cases h
  obtain ⟨t, ht, _, _, _, _, _, _, _, hf, _⟩ :=
    deploy_writes_inProgress_then_one_terminal abcConnection coinParams
      (.ok ⟨"0x84C8...796"⟩) (.error (.error ⟨"insufficient funds"⟩)) h1 h2
  exact ⟨h1, h2, t, ht, hf _ _ rfl rfl⟩

/-- C2, as stated, fails at the first step: when the construction of the
contract factory throws (message "bad signer"), `deploy` writes no status at
all, so a form state stays without a status instead of showing the failure
value, and the error reaches the caller through the returned promise; on the
page, the release click then leaves the status absent and nothing in flight. -/
theorem deploy_construct_failure_escapes :
    (deploy
        { construct := .error (.error ⟨"bad signer"⟩), deployed := .ok ⟨"0x84C8"⟩,
          waited := .ok () }
        ⟨⟨⟨0⟩⟩, ⟨⟨⟨0⟩⟩⟩, ["0xABC"]⟩ coinParams).result =
      .error (.thrown (.error ⟨"bad signer"⟩)) ∧
    (deploy
        { construct := .error (.error ⟨"bad signer"⟩), deployed := .ok ⟨"0x84C8"⟩,
          waited := .ok () }
        ⟨⟨⟨0⟩⟩, ⟨⟨⟨0⟩⟩⟩, ["0xABC"]⟩ coinParams).writes = [] ∧
    (deploy
        { construct := .error (.error ⟨"bad signer"⟩), deployed := .ok ⟨"0x84C8"⟩,
          waited := .ok () }
        ⟨⟨⟨0⟩⟩, ⟨⟨⟨0⟩⟩⟩, ["0xABC"]⟩ coinParams).statusAfter none = none ∧
    (deploy
        { construct := .error (.error ⟨"bad signer"⟩), deployed := .ok ⟨"0x84C8"⟩,
          waited := .ok () }
        ⟨⟨⟨0⟩⟩, ⟨⟨⟨0⟩⟩⟩, ["0xABC"]⟩ coinParams).statusAfter none ≠
      some { isFinite := true, msg := "Uh oh, error occurred", details := "bad signer" } ∧
    (run page
        [.clickConnect, .accountsSettled 0 (.ok ["0xABC"]),
         .clickRelease (.error (.error ⟨"bad signer"⟩))]).map
      (fun s => (s.deploymentStatus, s.tasks)) = some (none, []) :=
  ⟨rfl, rfl, rfl, by decide, by decide⟩

/-- C2, amended: once the contract factory has been constructed, a failure
with message text `m` raised by the submission of the deployment call or by
the confirmation wait is caught: the promise returned by `deploy` fulfils, and
the deployment status is left at the terminal failure value carrying `m`. -/
theorem deploy_catches_awaited_failures (connection : Connection) (params : Obj) (m : String)
    (before : Option DeploymentStatus) :
    (∀ waited,
      (deploy { construct := .ok (), deployed := .error (.error ⟨m⟩), waited := waited }
        connection params).result = .ok () ∧
      (deploy { construct := .ok (), deployed := .error (.error ⟨m⟩), waited := waited }
        connection params).statusAfter before =
        some { isFinite := true, msg := "Uh oh, error occurred", details := m }) ∧
    (∀ contract,
      (deploy { construct := .ok (), deployed := .ok contract, waited := .error (.error ⟨m⟩) }
        connection params).result = .ok () ∧
      (deploy { construct := .ok (), deployed := .ok contract, waited := .error (.error ⟨m⟩) }
        connection params).statusAfter before =
        some { isFinite := true, msg := "Uh oh, error occurred", details := m }) :=
  ⟨fun _ => ⟨rfl, rfl⟩, fun _ => ⟨rfl, rfl⟩⟩

/-- C7: when the deployment call resolves to a contract with address `A` and
the confirmation wait resolves, the final status is terminal with message
"Token has been released!" and details "Token's smart contract address: "
followed by `A` (so the details contain `A`), and `factory.deploy` was called
once, with the values of `name`, `symbol`, `initialSupply` and `owner` of the
params, in this order; at the spec's parameters the arguments are "Coin",
"CN", "1000", "0xABC", and the page on which these parameters were typed in
and the deployment resolved to "0x84C8...796" ends with that success status. -/
theorem deploy_success_status_and_arguments (connection : Connection) (params : Obj)
    (A : String) (before : Option DeploymentStatus) :
    (deploy { construct := .ok (), deployed := .ok ⟨A⟩, waited := .ok () }
        connection params).statusAfter before =
      some { isFinite := true, msg := "Token has been released!",
             details := "Token's smart contract address: " ++ A } ∧
    A.data <:+: ("Token's smart contract address: " ++ A).data ∧
    (deploy { construct := .ok (), deployed := .ok ⟨A⟩, waited := .ok () }
        connection params).deployCalls =
      [[params.get "name", params.get "symbol", params.get "initialSupply",
        params.get "owner"]] ∧
    (deploy { construct := .ok (), deployed := .ok ⟨A⟩, waited := .ok () }
        connection coinParams).deployCalls =
      [[.str "Coin", .str "CN", .str "1000", .str "0xABC"]] ∧
    (run page
        [.clickConnect, .accountsSettled 0 (.ok ["0xABC"]), .change "name" "Coin",
         .change "symbol" "CN", .change "initialSupply" "1000", .clickRelease (.ok ())]).map
      (fun s => s.tasks) =
      some [.deploy (.factoryDeploy (.str "Coin") (.str "CN") (.str "1000") (.str "0xABC"))] ∧
    (run page
        [.clickConnect, .accountsSettled 0 (.ok ["0xABC"]), .change "name" "Coin",
         .change "symbol" "CN", .change "initialSupply" "1000", .clickRelease (.ok ()),
         .deploySettled 0 (.ok ⟨"0x84C8...796"⟩), .waitSettled 0 (.ok ())]).map
      (fun s => s.deploymentStatus) =
      some (some { isFinite := true, msg := "Token has been released!",
                   details := "Token's smart contract address: 0x84C8...796" }) := by
  refine ⟨rfl, ?_, rfl, rfl, by decide, by decide⟩
  rw [String.data_append]
  exact List.suffix_append _ _ |>.isInfix

/-- C8: when the deployment call, or the confirmation wait after it, rejects
with an error whose message is `m`, the final status is exactly the terminal
failure value with `m` as details; so for "insufficient funds", in a run of
`deploy` and on the page. -/
theorem deploy_rejection_status (connection : Connection) (params : Obj) (m : String)
    (before : Option DeploymentStatus) :
    (∀ waited,
      (deploy { construct := .ok (), deployed := .error (.error ⟨m⟩), waited := waited }
        connection params).statusAfter before =
        some { isFinite := true, msg := "Uh oh, error occurred", details := m }) ∧
    (∀ contract,
      (deploy { construct := .ok (), deployed := .ok contract, waited := .error (.error ⟨m⟩) }
        connection params).statusAfter before =
        some { isFinite := true, msg := "Uh oh, error occurred", details := m }) ∧
    (deploy { construct := .ok (), deployed := .error (.error ⟨"insufficient funds"⟩), waited := .ok () }
        connection params).statusAfter before =
      some { isFinite := true, msg := "Uh oh, error occurred",
             details := "insufficient funds" } ∧
    (run page
        [.clickConnect, .accountsSettled 0 (.ok ["0xABC"]), .clickRelease (.ok ()),
         .deploySettled 0 (.error (.error ⟨"insufficient funds"⟩))]).map
      (fun s => s.deploymentStatus) =
      some (some { isFinite := true, msg := "Uh oh, error occurred",
                   details := "insufficient funds" }) ∧
    (run page
        [.clickConnect, .accountsSettled 0 (.ok ["0xABC"]), .clickRelease (.ok ()),
         .deploySettled 0 (.ok ⟨"0x84C8...796"⟩),
         .waitSettled 0 (.error (.error ⟨"insufficient funds"⟩))]).map
      (fun s => s.deploymentStatus) =
      some (some { isFinite := true, msg := "Uh oh, error occurred",
                   details := "insufficient funds" }) :=
  ⟨fun _ => rfl, fun _ => rfl, rfl, by decide, by decide⟩

/-! ### Facts about the state cells -/

theorem runEffects_connection (s : AppState) : (runEffects s).connection = s.connection := by
  unfold runEffects ownerEffect connectionEffect setTokenParams
  split <;> rfl

theorem runEffects_deploymentStatus (s : AppState) :
    (runEffects s).deploymentStatus = s.deploymentStatus := by
  unfold runEffects ownerEffect connectionEffect setTokenParams
  split <;> rfl

theorem runEffects_tasks (s : AppState) : (runEffects s).tasks = s.tasks := by
  unfold runEffects ownerEffect connectionEffect setTokenParams
  split <;> rfl

theorem runEffects_ethereum (s : AppState) : (runEffects s).ethereum = s.ethereum := by
  unfold runEffects ownerEffect connectionEffect setTokenParams
  split <;> rfl

theorem runEffects_listeners (s : AppState) :
    (runEffects s).listeners = if s.connection.isSome then s.listeners + 1 else s.listeners := by
  unfold runEffects ownerEffect connectionEffect setTokenParams
  split <;> rfl

theorem runEffects_heap (s : AppState) :
    ((runEffects s).heap, (runEffects s).tokenParams) =
      onTokenParamChanged OWNER (firstAccount s.connection) s.heap s.tokenParams := by
  unfold runEffects ownerEffect connectionEffect setTokenParams
  split <;> rfl

theorem runEffects_wellFormed (s : AppState) (hs : s.WellFormed) : (runEffects s).WellFormed := by
  have h := runEffects_heap s
  rw [onTokenParamChanged_eq _ _ _ _ hs] at h
  have h1 := congrArg Prod.fst h
  have h2 := congrArg Prod.snd h
  simp only at h1 h2
  unfold AppState.WellFormed
  rw [h1, h2]; simp

theorem runEffects_params (s : AppState) (hs : s.WellFormed) (k : String) :
    (runEffects s).params.get k =
      if k = OWNER then firstAccount s.connection else s.params.get k := by
  have h := runEffects_heap s
  have h1 := congrArg Prod.fst h
  have h2 := congrArg Prod.snd h
  simp only at h1 h2
  unfold AppState.params
  rw [h1, h2, onTokenParamChanged_read _ _ _ _ hs, Obj.get_assigned]

theorem setConnection_connection (v : Option Connection) (s : AppState) :
    (setConnection v s).connection = v := by
  unfold setConnection
  split
  · next h => exact h
  · rw [runEffects_connection]

theorem setConnection_deploymentStatus (v : Option Connection) (s : AppState) :
    (setConnection v s).deploymentStatus = s.deploymentStatus := by
  unfold setConnection
  split
  · rfl
  · rw [runEffects_deploymentStatus]

theorem setConnection_tasks (v : Option Connection) (s : AppState) :
    (setConnection v s).tasks = s.tasks := by
  unfold setConnection
  split
  · rfl
  · rw [runEffects_tasks]

theorem setConnection_ethereum (v : Option Connection) (s : AppState) :
    (setConnection v s).ethereum = s.ethereum := by
  unfold setConnection
  split
  · rfl
  · rw [runEffects_ethereum]

theorem setConnection_wellFormed (v : Option Connection) (s : AppState) (hs : s.WellFormed) :
    (setConnection v s).WellFormed := by
  unfold setConnection
  split
  · exact hs
  · exact runEffects_wellFormed _ hs

theorem setConnection_some (c : Connection) (s : AppState) :
    setConnection (some c) s = runEffects { s with connection := some c } := by
  unfold setConnection
  split
  · next h _ => cases h
  · rfl

theorem setConnection_none_of_none (s : AppState) (h : s.connection = none) :
    setConnection none s = s := by
  unfold setConnection
  split
  · rfl
  · next hne => exact absurd h (hne rfl)

theorem setConnection_none_of_some (s : AppState) (c : Connection)
    (h : s.connection = some c) :
    setConnection none s = runEffects { s with connection := none } := by
  unfold setConnection
  rw [h]

theorem setConnection_params_frame (v : Option Connection) (s : AppState) (hs : s.WellFormed)
    (k : String) (hk : k ≠ OWNER) : (setConnection v s).params.get k = s.params.get k := by
  cases v with
  | some c =>
    rw [setConnection_some, runEffects_params { s with connection := some c } hs]
    simp [hk, AppState.params]
  | none =>
    cases hc : s.connection with
    | none => rw [setConnection_none_of_none s hc]
    | some c0 =>
      rw [setConnection_none_of_some s c0 hc, runEffects_params { s with connection := none } hs]
      simp [hk, AppState.params]

theorem setConnection_some_listeners (c : Connection) (s : AppState) :
    (setConnection (some c) s).listeners = s.listeners + 1 := by
  rw [setConnection_some, runEffects_listeners]; rfl

theorem setConnection_some_owner (c : Connection) (s : AppState) (hs : s.WellFormed) :
    (setConnection (some c) s).params.get OWNER = firstAccount (some c) := by
  rw [setConnection_some, runEffects_params { s with connection := some c } hs]; simp

theorem applyWrites_frame (writes : List DeploymentStatus) :
    ∀ s : AppState,
      (applyWrites writes s).heap = s.heap ∧
      (applyWrites writes s).tokenParams = s.tokenParams ∧
      (applyWrites writes s).connection = s.connection ∧
      (applyWrites writes s).listeners = s.listeners ∧
      (applyWrites writes s).ethereum = s.ethereum ∧
      (applyWrites writes s).tasks = s.tasks ∧
      (applyWrites writes s).deploymentStatus =
        writes.foldl (fun _ v => some v) s.deploymentStatus := by
  induction writes with
  | nil => intro s; exact ⟨rfl, rfl, rfl, rfl, rfl, rfl, rfl⟩
  | cons w ws ih =>
    intro s
    have h := ih (setDeploymentStatus (some w) s)
    exact h

theorem setConnection_inv (v : Option Connection) (s : AppState) (hs : s.Inv) :
    (setConnection v s).Inv := by
  refine ⟨setConnection_wellFormed v s hs.1, ?_⟩
  rw [setConnection_connection]
  cases v with
  | none => intro h; cases h
  | some c => intro _; rw [setConnection_some_listeners]; exact Nat.succ_pos _

theorem onAccountsChanged_inv (newAccounts : List String) (s : AppState) (hs : s.Inv) :
    (onAccountsChanged newAccounts s).Inv := by
  unfold onAccountsChanged
  split
  · exact setConnection_inv none s hs
  · exact hs

theorem iterate_inv (f : AppState → AppState) (hf : ∀ s, s.Inv → (f s).Inv) (n : Nat) :
    ∀ s, s.Inv → (Nat.iterate f n s).Inv := by
  induction n with
  | zero => intro s hs; exact hs
  | succ n ih => intro s hs; exact ih (f s) (hf s hs)

theorem foldl_setConnection_inv (vs : List (Option Connection)) :
    ∀ s : AppState, s.Inv → (vs.foldl (fun st v => setConnection v st) s).Inv := by
  induction vs with
  | nil => intro s hs; exact hs
  | cons v vs ih => intro s hs; exact ih _ (setConnection_inv v s hs)

theorem step_inv (s s1 : AppState) (e : Event) (hs : s.Inv) (h : step s e = some s1) :
    s1.Inv := by
  cases e with
  | clickConnect =>
    simp only [step] at h
    split at h
    · split at h
      · cases h; exact hs
      · cases h
    · cases h
  | accountsSettled i accounts =>
    simp only [step] at h
    split at h
    · split at h
      · cases h
        exact foldl_setConnection_inv _ _ hs
      · cases h; exact hs
    · cases h
  | accountsChanged newAccounts =>
    simp only [step] at h
    cases h
    exact iterate_inv _ (onAccountsChanged_inv newAccounts) _ s hs
  | change name value =>
    simp only [step] at h
    split at h
    · split at h
      · cases h
        refine ⟨?_, hs.2⟩
        unfold AppState.WellFormed setTokenParams
        simp only
        rw [onTokenParamChanged_eq _ _ _ _ hs.1]; simp
      · cases h
    · cases h
  | clickRelease construct =>
    simp only [step] at h
    split at h
    · have hf := applyWrites_frame (deployBegin construct ‹Connection› s.params).writes s
      obtain ⟨h1, h2, h3, h4, _, _, _⟩ := hf
      split at h
      · cases h
        refine ⟨?_, ?_⟩
        · unfold AppState.WellFormed; simp only [h1, h2]; exact hs.1
        · simp only [h3, h4]; exact hs.2
      · cases h
        refine ⟨?_, ?_⟩
        · unfold AppState.WellFormed; simp only [h1, h2]; exact hs.1
        · simp only [h3, h4]; exact hs.2
    · cases h
  | deploySettled i deployed =>
    simp only [step] at h
    split at h
    · have hf := applyWrites_frame (deployAfterDeploy deployed).writes s
      obtain ⟨h1, h2, h3, h4, _, _, _⟩ := hf
      cases h
      refine ⟨?_, ?_⟩
      · unfold AppState.WellFormed; simp only [h1, h2]; exact hs.1
      · simp only [h3, h4]; exact hs.2
    · cases h
  | waitSettled i waited =>
    simp only [step] at h
    split at h
    · next contract _ =>
      have hf := applyWrites_frame (deployAfterWait contract waited).writes s
      obtain ⟨h1, h2, h3, h4, _, _, _⟩ := hf
      cases h
      refine ⟨?_, ?_⟩
      · unfold AppState.WellFormed; simp only [h1, h2]; exact hs.1
      · simp only [h3, h4]; exact hs.2
    · cases h
  | clickTryAgain =>
    simp only [step] at h
    split at h
    · split at h
      · cases h; exact hs
      · cases h
    · cases h

theorem mount_inv (ethereum : Option Wallet) (DefaultTokenParams : Obj) :
    (mount ethereum DefaultTokenParams).Inv := by
  unfold mount
  refine ⟨runEffects_wellFormed _ (by simp [AppState.WellFormed]), ?_⟩
  rw [runEffects_connection]
  intro h; cases h

theorem reachable_inv (s : AppState) (h : Reachable s) : s.Inv := by
  induction h with
  | mount ethereum d => exact mount_inv ethereum d
  | step e _ hstep ih => exact step_inv _ _ e ih hstep

theorem iterate_onAccountsChanged_nil (n : Nat) :
    ∀ s : AppState,
      (Nat.iterate (onAccountsChanged []) n s).deploymentStatus = s.deploymentStatus ∧
      (Nat.iterate (onAccountsChanged []) n s).tasks = s.tasks ∧
      (Nat.iterate (onAccountsChanged []) n s).ethereum = s.ethereum ∧
      ((0 < n ∨ s.connection = none) →
        (Nat.iterate (onAccountsChanged []) n s).connection = none) := by
  induction n with
  | zero =>
    intro s
    refine ⟨rfl, rfl, rfl, ?_⟩
    intro h
    cases h with
    | inl h => exact absurd h (Nat.lt_irrefl 0)
    | inr h => exact h
  | succ n ih =>
    intro s
    have hf : onAccountsChanged [] s = setConnection none s := by simp [onAccountsChanged]
    obtain ⟨h1, h2, h3, h4⟩ := ih (onAccountsChanged [] s)
    refine ⟨?_, ?_, ?_, ?_⟩
    · exact h1.trans (by rw [hf, setConnection_deploymentStatus])
    · exact h2.trans (by rw [hf, setConnection_tasks])
    · exact h3.trans (by rw [hf, setConnection_ethereum])
    · intro _
      exact h4 (Or.inr (by rw [hf, setConnection_connection]))

/-! ### The claims about the page -/

/-- C1 on the code: when the authorization request resolves with an empty
account list, `connect` calls `setConnection(null)` and then, with no `else`
or `return` between, `setConnection` with a connection object; the page ends
with a Connection whose account list is empty, the connect button is gone and
the deployment form is shown. -/
theorem connect_empty_accounts_stores_connection :
    connect { ethereum := { id := 0 } } [] =
      [none, some { provider := { ethereum := { id := 0 } },
                    signer := { provider := { ethereum := { id := 0 } } }, accounts := [] }] ∧
    (run page [.clickConnect, .accountsSettled 0 (.ok [])]).map (fun s => s.connection) =
      some (some { provider := { ethereum := { id := 0 } },
                   signer := { provider := { ethereum := { id := 0 } } }, accounts := [] }) ∧
    (run page [.clickConnect, .accountsSettled 0 (.ok [])]).map (fun s => s.connectionView) =
      some .null ∧
    (run page [.clickConnect, .accountsSettled 0 (.ok [])]).map (fun s => s.deploymentView) =
      some (.form
        [ { label := "Token name", name := "name", type := none, value := "" },
          { label := "Token symbol", name := "symbol", type := none, value := "" },
          { label := "Initial supply", name := "initialSupply", type := some "number",
            value := "" },
          { label := "Token owner", name := "owner", type := none, value := "" } ]
        "Release!") := by
  refine ⟨by decide, by decide, by decide, by decide⟩

/-- C5: in every state the page can be in, when a suspended `connect` resumes
with a non-empty account list `a0 :: rest`, the page ends with a Connection
holding that list, the `owner` parameter is `a0` whatever it was before, and
every other parameter (`name`, `symbol`, `initialSupply`) reads as before. -/
theorem connect_nonempty_sets_owner (s : AppState) (hs : Reachable s) (i : Nat)
    (provider : Provider) (ht : s.tasks.get? i = some (.connect provider))
    (a0 : String) (rest : List String) :
    ∃ s1, step s (.accountsSettled i (.ok (a0 :: rest))) = some s1 ∧
      s1.connection =
        some { provider := provider, signer := { provider := provider },
               accounts := a0 :: rest } ∧
      s1.params.get OWNER = .str a0 ∧
      s1.params.get NAME = s.params.get NAME ∧
      s1.params.get SYMBOL = s.params.get SYMBOL ∧
      s1.params.get INITIAL_SUPPLY = s.params.get INITIAL_SUPPLY ∧
      ∀ k, k ≠ OWNER → s1.params.get k = s.params.get k := by
  have hwf : AppState.WellFormed { s with tasks := s.tasks.eraseIdx i } := (reachable_inv s hs).1
  have hstep : step s (.accountsSettled i (.ok (a0 :: rest))) =
      some (setConnection
        (some { provider := provider, signer := { provider := provider },
                accounts := a0 :: rest })
        { s with tasks := s.tasks.eraseIdx i }) := by
    have ht1 : s.tasks[i]? = some (.connect provider) := by
      rw [← List.get?_eq_getElem?]; exact ht
    simp [step, ht1, connect]
  have hframe : ∀ k, k ≠ OWNER →
      (setConnection
        (some { provider := provider, signer := { provider := provider },
                accounts := a0 :: rest })
        { s with tasks := s.tasks.eraseIdx i }).params.get k = s.params.get k := by
    intro k hk
    rw [setConnection_params_frame _ _ hwf k hk]
    rfl
  refine ⟨_, hstep, setConnection_connection _ _, ?_, ?_, ?_, ?_, hframe⟩
  · rw [setConnection_some_owner _ _ hwf]; rfl
  · exact hframe NAME (by decide)
  · exact hframe SYMBOL (by decide)
  · exact hframe INITIAL_SUPPLY (by decide)

theorem reachable_connecting : Reachable connecting :=
  Reachable.step .clickConnect (Reachable.mount (some { id := 0 }) Obj.empty) rfl

/-- C5 at the spec's scenario: `connect()` resolves with `["0xABC"]`. -/
theorem connect_nonempty_sets_owner_witness :
    Reachable connecting ∧
    connecting.tasks.get? 0 = some (.connect { ethereum := { id := 0 } }) ∧
    ∃ s1, step connecting (.accountsSettled 0 (.ok ["0xABC"])) = some s1 ∧
      s1.connection = some abcConnection ∧ s1.params.get OWNER = .str "0xABC" := by
  refine ⟨reachable_connecting, rfl, ?_⟩
  obtain ⟨s1, h1, h2, h3, _⟩ :=
    connect_nonempty_sets_owner connecting reachable_connecting 0 { ethereum := { id := 0 } } rfl
      "0xABC" []
  exact ⟨s1, h1, h2, h3⟩

/-- C6: in every state the page can be in with a Connection present, whatever
the token params and the deployment status, an `accountsChanged` notification
with an empty list sets the Connection to absent; afterwards the deployment
view renders nothing and, when the wallet handle exists, the connection view
renders the connect button. -/
theorem accountsChanged_empty_disconnects (s : AppState) (hs : Reachable s)
    (hc : s.connection.isSome = true) :
    ∃ s1, step s (.accountsChanged []) = some s1 ∧
      s1.connection = none ∧
      s1.deploymentView = .null ∧
      (s.ethereum.isSome = true → s1.connectionView = .connectButton) := by
  have hpos : 0 < s.listeners := (reachable_inv s hs).2 hc
  obtain ⟨_, _, h3, h4⟩ := iterate_onAccountsChanged_nil s.listeners s
  have hnone := h4 (Or.inl hpos)
  refine ⟨Nat.iterate (onAccountsChanged []) s.listeners s, rfl, hnone, ?_, ?_⟩
  · simp [AppState.deploymentView, DeploymentController, hnone]
  · intro he
    simp only [AppState.connectionView, ConnectionController, hnone, h3]
    cases hh : s.ethereum with
    | none => rw [hh] at he; cases he
    | some w => rfl

theorem reachable_connected : Reachable connected :=
  Reachable.step (.accountsSettled 0 (.ok ["0xABC"])) reachable_connecting rfl

/-- C6 at the spec's scenario: the notification arrives while connected with
`["0xABC"]`. -/
theorem accountsChanged_empty_disconnects_witness :
    Reachable connected ∧ connected.connection.isSome = true ∧
    ∃ s1, step connected (.accountsChanged []) = some s1 ∧
      s1.connection = none ∧
      s1.deploymentView = .null ∧
      (connected.ethereum.isSome = true → s1.connectionView = .connectButton) :=
  ⟨reachable_connected, by decide,
    accountsChanged_empty_disconnects connected reachable_connected (by decide)⟩

/-- C9: in every state with a Connection present and a terminal deployment
status, the "Try again?" click clears the status, after which the form (the
four inputs, followed by the release button) is rendered and the Connection
and the token params are what they were; and, in any state, that click is
possible exactly when a Connection is present and the status is terminal: the
status panel has the button exactly when `isFinite` is true. -/
theorem reset_returns_to_form (s : AppState) (d : DeploymentStatus)
    (hc : s.connection.isSome = true) (hd : s.deploymentStatus = some d)
    (ht : d.isFinite = true) :
    (∃ s1, step s .clickTryAgain = some s1 ∧
      s1.deploymentStatus = none ∧
      s1.deploymentView = .form
        [ makeInput s.params "Token name" "name" none,
          makeInput s.params "Token symbol" "symbol" none,
          makeInput s.params "Initial supply" "initialSupply" (some "number"),
          makeInput s.params "Token owner" "owner" none ]
        "Release!" ∧
      s1.connection = s.connection ∧ s1.tokenParams = s.tokenParams ∧ s1.heap = s.heap) ∧
    (∀ d1 : DeploymentStatus,
      DeploymentStatusController (some d1) =
        some { msg := d1.msg, details := d1.details, tryAgain := d1.isFinite }) ∧
    (∀ t : AppState, (step t .clickTryAgain).isSome = true ↔
      (t.connection.isSome = true ∧ ∃ d1, t.deploymentStatus = some d1 ∧ d1.isFinite = true)) := by
  refine ⟨⟨setDeploymentStatus none s, ?_, rfl, ?_, rfl, rfl, rfl⟩, fun _ => rfl, ?_⟩
  · cases hcs : s.connection with
    | none => rw [hcs] at hc; cases hc
    | some c =>
      simp [step, AppState.deploymentView, DeploymentController, DeploymentStatusController,
        hcs, hd, ht]
  · cases hcs : s.connection with
    | none => rw [hcs] at hc; cases hc
    | some c =>
      simp [AppState.deploymentView, DeploymentController, setDeploymentStatus, hcs,
        AppState.params, NAME, SYMBOL, INITIAL_SUPPLY, OWNER]
  · intro t
    cases hct : t.connection with
    | none =>
      simp [step, AppState.deploymentView, DeploymentController, hct]
    | some c =>
      cases hdt : t.deploymentStatus with
      | none => simp [step, AppState.deploymentView, DeploymentController, hct, hdt]
      | some d1 =>
        cases hf : d1.isFinite <;>
          simp [step, AppState.deploymentView, DeploymentController,
            DeploymentStatusController, hct, hdt, hf]

/-- C9 at a page whose deployment failed with "insufficient funds". -/
theorem reset_returns_to_form_witness :
    failedPage.connection.isSome = true ∧
    failedPage.deploymentStatus = some (failed { message := "insufficient funds" }) ∧
    (failed { message := "insufficient funds" }).isFinite = true ∧
    ∃ s1, step failedPage .clickTryAgain = some s1 ∧
      s1.deploymentStatus = none ∧
      s1.deploymentView = .form
        [ makeInput failedPage.params "Token name" "name" none,
          makeInput failedPage.params "Token symbol" "symbol" none,
          makeInput failedPage.params "Initial supply" "initialSupply" (some "number"),
          makeInput failedPage.params "Token owner" "owner" none ]
        "Release!" ∧
      s1.connection = failedPage.connection ∧ s1.tokenParams = failedPage.tokenParams ∧
      s1.heap = failedPage.heap :=
  ⟨rfl, rfl, rfl,
    (reset_returns_to_form failedPage (failed { message := "insufficient funds" }) rfl rfl rfl).1⟩

theorem step_accountsSettled_cons (s : AppState) (i : Nat) (provider : Provider)
    (ht : s.tasks.get? i = some (.connect provider)) (a0 : String) (rest : List String) :
    step s (.accountsSettled i (.ok (a0 :: rest))) =
      some (setConnection
        (some { provider := provider, signer := { provider := provider },
                accounts := a0 :: rest })
        { s with tasks := s.tasks.eraseIdx i }) := by
  have ht1 : s.tasks[i]? = some (.connect provider) := by
    rw [← List.get?_eq_getElem?]; exact ht
  simp [step, ht1, connect]

/-- C10, as stated, fails twice. First trace: connect, release, the deployment
call rejects with "insufficient funds", the accounts go away, connect again
with `["0xABC"]`: the page shows the old failure status, not the form. Second
trace: connect, release, the accounts go away while the deployment call is in
flight (Connection absent, status in progress), then the call rejects: the
failure status is written while the Connection is absent. -/
theorem stale_status_after_reconnect :
    (run page
        [.clickConnect, .accountsSettled 0 (.ok ["0xABC"]), .clickRelease (.ok ()),
         .deploySettled 0 (.error (.error ⟨"insufficient funds"⟩)), .accountsChanged [],
         .clickConnect, .accountsSettled 0 (.ok ["0xABC"])]).map
      (fun s => (s.connection, s.deploymentStatus, s.deploymentView)) =
      some (some abcConnection,
        some { isFinite := true, msg := "Uh oh, error occurred", details := "insufficient funds" },
        .status (some { msg := "Uh oh, error occurred", details := "insufficient funds",
                        tryAgain := true })) ∧
    (run page
        [.clickConnect, .accountsSettled 0 (.ok ["0xABC"]), .clickRelease (.ok ()),
         .accountsChanged []]).map
      (fun s => (s.connection, s.deploymentStatus)) = some (none, some inProgress) ∧
    (run page
        [.clickConnect, .accountsSettled 0 (.ok ["0xABC"]), .clickRelease (.ok ()),
         .accountsChanged [], .deploySettled 0 (.error (.error ⟨"insufficient funds"⟩))]).map
      (fun s => (s.connection, s.deploymentStatus)) =
      some (none,
        some { isFinite := true, msg := "Uh oh, error occurred",
               details := "insufficient funds" }) := by
  refine ⟨by decide, by decide, by decide⟩

theorem run_nil (s : AppState) : run s [] = some s := rfl

theorem run_cons (s : AppState) (e : Event) (es : List Event) :
    run s (e :: es) = (step s e).bind (fun s1 => run s1 es) := by
  cases h : step s e <;> simp [run, List.foldlM, h]

/-- C10, amended: from every state the page can be in (with a wallet), an
account disconnection makes the Connection absent and the deployment view
empty, and leaves the deployment status as it was; a following connect that
resolves with a non-empty account list gives a Connection with that list and
the deployment status held before the disconnection, so the form is rendered
exactly when that status was absent. While the Connection is absent no
deployment can be started and no reset is possible; an event that changes the
status then is the settlement of a call of a deployment already in flight. -/
theorem disconnect_then_connect_keeps_status (s : AppState) (hs : Reachable s) (w : Wallet)
    (hw : s.ethereum = some w) (a0 : String) (rest : List String) :
    (∃ s1, step s (.accountsChanged []) = some s1 ∧ s1.connection = none ∧
      s1.deploymentView = .null ∧ s1.deploymentStatus = s.deploymentStatus) ∧
    (∃ s3,
      run s [.accountsChanged [], .clickConnect,
             .accountsSettled s.tasks.length (.ok (a0 :: rest))] = some s3 ∧
      s3.connection =
        some { provider := { ethereum := w }, signer := { provider := { ethereum := w } },
               accounts := a0 :: rest } ∧
      s3.deploymentStatus = s.deploymentStatus ∧
      ((∃ inputs button, s3.deploymentView = .form inputs button) ↔ s.deploymentStatus = none)) ∧
    (∀ t : AppState, t.connection = none →
      (∀ c, step t (.clickRelease c) = none) ∧ step t .clickTryAgain = none ∧
      ∀ e t1, step t e = some t1 → t1.deploymentStatus ≠ t.deploymentStatus →
        (∃ i o, e = .deploySettled i o) ∨ (∃ i o, e = .waitSettled i o)) := by
  obtain ⟨h1, h2, h3, h4⟩ := iterate_onAccountsChanged_nil s.listeners s
  have hnone : (Nat.iterate (onAccountsChanged []) s.listeners s).connection = none := by
    cases hc : s.connection with
    | none => exact h4 (Or.inr hc)
    | some c => exact h4 (Or.inl ((reachable_inv s hs).2 (by rw [hc]; rfl)))
  have hstep1 : step s (.accountsChanged []) =
      some (Nat.iterate (onAccountsChanged []) s.listeners s) := rfl
  generalize Nat.iterate (onAccountsChanged []) s.listeners s = s1 at h1 h2 h3 hnone hstep1
  have hview1 : s1.deploymentView = .null := by
    simp [AppState.deploymentView, DeploymentController, hnone]
  have hstep2 : step s1 .clickConnect =
      some { s1 with tasks := s1.tasks ++ [.connect { ethereum := w }] } := by
    simp [step, h3, hw, AppState.connectionView, ConnectionController, hnone]
  have hget : (AppState.tasks
      { s1 with tasks := s1.tasks ++ [.connect { ethereum := w }] }).get? s.tasks.length =
        some (.connect { ethereum := w }) := by
    simp [h2]
  have hstep3 := step_accountsSettled_cons
    { s1 with tasks := s1.tasks ++ [.connect { ethereum := w }] }
    s.tasks.length { ethereum := w } hget a0 rest
  generalize hs3 : setConnection
      (some { provider := { ethereum := w }, signer := { provider := { ethereum := w } },
              accounts := a0 :: rest })
      { ({ s1 with tasks := s1.tasks ++ [.connect { ethereum := w }] } : AppState) with
        tasks := (AppState.tasks
          { s1 with tasks := s1.tasks ++ [.connect { ethereum := w }] }).eraseIdx
            s.tasks.length } = s3 at hstep3
  have hc3 : s3.connection =
      some { provider := { ethereum := w }, signer := { provider := { ethereum := w } },
             accounts := a0 :: rest } := by
    rw [← hs3]; exact setConnection_connection _ _
  have hd3 : s3.deploymentStatus = s.deploymentStatus := by
    rw [← hs3, setConnection_deploymentStatus]; exact h1
  refine ⟨⟨s1, hstep1, hnone, hview1, h1⟩, ⟨s3, ?_, hc3, hd3, ?_⟩, ?_⟩
  · rw [run_cons, hstep1, Option.some_bind, run_cons, hstep2, Option.some_bind, run_cons,
      hstep3, Option.some_bind, run_nil]
  · simp only [AppState.deploymentView, DeploymentController, hc3, hd3]
    cases hds : s.deploymentStatus with
    | none => simp
    | some d => simp
  · intro t hct
    refine ⟨?_, ?_, ?_⟩
    · intro c
      simp [step, AppState.deploymentView, DeploymentController, hct]
    · simp [step, AppState.deploymentView, DeploymentController, hct]
    · intro e t1 hstep hne
      cases e with
      | clickConnect =>
        simp only [step] at hstep
        split at hstep
        · split at hstep
          · cases hstep; exact absurd rfl hne
          · cases hstep
        · cases hstep
      | accountsSettled i accounts =>
        exfalso
        simp only [step] at hstep
        split at hstep
        · split at hstep
          · cases hstep
            apply hne
            unfold connect
            split <;> simp [List.foldl, setConnection_deploymentStatus]
          · cases hstep; exact hne rfl
        · cases hstep
      | accountsChanged newAccounts =>
        exfalso
        simp only [step] at hstep
        cases hstep
        apply hne
        have hfix : onAccountsChanged newAccounts t = t := by
          unfold onAccountsChanged
          split
          · exact setConnection_none_of_none t hct
          · rfl
        rw [Function.iterate_fixed hfix]
      | change name value =>
        simp [step, AppState.deploymentView, DeploymentController, hct] at hstep
      | clickRelease construct =>
        simp [step, AppState.deploymentView, DeploymentController, hct] at hstep
      | deploySettled i deployed => exact Or.inl ⟨i, deployed, rfl⟩
      | waitSettled i waited => exact Or.inr ⟨i, waited, rfl⟩
      | clickTryAgain =>
        simp [step, AppState.deploymentView, DeploymentController, hct] at hstep

/-- C10, amended, at the page that is connected with `["0xABC"]`. -/
theorem disconnect_then_connect_keeps_status_witness :
    Reachable connected ∧ connected.ethereum = some { id := 0 } ∧
    ∃ s3,
      run connected [.accountsChanged [], .clickConnect,
             .accountsSettled connected.tasks.length (.ok ["0xABC"])] = some s3 ∧
      s3.connection = some abcConnection ∧
      s3.deploymentStatus = connected.deploymentStatus :=
  ⟨reachable_connected, rfl,
    match (disconnect_then_connect_keeps_status connected reachable_connected { id := 0 } rfl
      "0xABC" []).2.1 with
    | ⟨s3, h1, h2, h3, _⟩ => ⟨s3, h1, h2, h3⟩⟩

end TokenWizard
